import Mathlib

/-!
Shallow embedding of the `ffi-cell` crate (`src/lib.rs`): a lending cell
holding an atomic pointer slot and an atomic busy flag, with operations
`try_lend`, `try_borrow`, `try_reclaim`, `try_run` and the access guard's
release (`Drop for FfiGuard`).

Modelling choices:
- A machine address of type `T` is a natural number; `AtomicPtr<T>` is an
  `Option Addr`, where `none` stands for the null pointer and `some a` for
  a non-null address (Rust `&mut T` references are never null).
- `AtomicBool` is `Bool`.
- Each operation is a pure function from the cell state to a result paired
  with the new cell state; the sequential semantics of the `SeqCst`
  atomics (`load`, `swap`, `compare_exchange`) is spelled out step by step.
- A panic (`unreachable!`, failed `expect`, failed `assert!`) is a fatal
  result constructor; the paired state is the state of the cell at the
  moment the panic fires (the process dies, but the constructors let us
  reason about which paths are fatal and what they left behind).
- For the concurrency claim, `try_lend` is additionally broken into its
  two atomic steps (the advisory busy-flag load, then the authoritative
  compare-exchange on the slot) and two threads are interleaved by an
  explicit schedule.
-/

/-- A machine address (the value of a non-null `*mut T`). -/
abbrev Addr := Nat

/-- `FfiCell<T>`: `ptr: AtomicPtr<T>` (with `none` = null) and
`in_use: AtomicBool`. -/
structure FfiCell where
  ptr : Option Addr
  in_use : Bool
deriving DecidableEq, Repr

/-- `FfiCell::new()`: null pointer, not in use. -/
def FfiCell.new : FfiCell := ⟨none, false⟩

/-- `LendError` from `src/lib.rs`. -/
inductive LendError where
  | alreadyLent
  | alreadyHasLoan
deriving DecidableEq, Repr

/-- Outcome of `try_lend`: `Ok(())` or a `LendError`. -/
inductive LendResult where
  | ok
  | err (e : LendError)
deriving DecidableEq, Repr

/-- The access guard `FfiGuard` as far as its data matters: the non-null
address it took out of the cell (the back-reference to the cell is the
state-passing itself). -/
structure FfiGuard where
  ptr : Addr
deriving DecidableEq, Repr

/-- `Deref`/`DerefMut` for `FfiGuard`: dereferencing the guard reaches
exactly the address it owns. -/
def FfiGuard.deref (g : FfiGuard) : Addr := g.ptr

/-- `BorrowError` from `src/lib.rs`. -/
inductive BorrowResult where
  | ok (g : FfiGuard)
  | unavailable
  | alreadyBorrowed
deriving DecidableEq, Repr

/-- Outcome of `try_reclaim`: `Ok(())`, `Err(InUse)`, or the
`unreachable!("missing pointer when not in use")` panic. -/
inductive ReclaimResult where
  | ok
  | inUse
  | fatalMissing
deriving DecidableEq, Repr

/-- Outcome of the guard's `drop`: normal return, the failed `expect`
("tried to return lent pointer, but another pointer was there"), or the
failed `assert!` ("object was not in use when it was returned"). -/
inductive DropResult where
  | ok
  | fatalSlotOccupied
  | fatalNotInUse
deriving DecidableEq, Repr

namespace FfiCell

/-- `FfiCell::try_lend(ptr)`: load `in_use` (advisory check, fails with
`AlreadyLent` if set); then `compare_exchange(null, ptr)` on the slot,
which succeeds only if the slot was null, else `AlreadyHasLoan`. -/
def try_lend (a : Addr) (c : FfiCell) : LendResult × FfiCell :=
  if c.in_use then
    (.err .alreadyLent, c)
  else
    match c.ptr with
    | none => (.ok, { c with ptr := some a })
    | some _ => (.err .alreadyHasLoan, c)

/-- `FfiCell::try_borrow()`: `in_use.swap(true)`; if the old value was
true, fail with `AlreadyBorrowed` (the swap wrote true over true, so the
state is unchanged). Otherwise the flag is now claimed; `ptr.swap(null)`
takes the slot: a non-null old value yields a guard owning it, a null old
value fails with `Unavailable`, the flag staying claimed either way. -/
def try_borrow (c : FfiCell) : BorrowResult × FfiCell :=
  if c.in_use then
    (.alreadyBorrowed, c)
  else
    match c.ptr with
    | some a => (.ok ⟨a⟩, ⟨none, true⟩)
    | none => (.unavailable, ⟨none, true⟩)

/-- `FfiCell::try_reclaim()`: load `in_use`, fail with `InUse` if set;
else `ptr.swap(null)` and panic (`unreachable!`) if the old value was
already null, else succeed. The swap writes null in both of the latter
cases and never touches the flag. -/
def try_reclaim (c : FfiCell) : ReclaimResult × FfiCell :=
  if c.in_use then
    (.inUse, c)
  else
    match c.ptr with
    | none => (.fatalMissing, { c with ptr := none })
    | some _ => (.ok, { c with ptr := none })

end FfiCell

/-- `Drop for FfiGuard`: `compare_exchange(null, self.ptr)` on the cell's
slot — if the slot is not null the `expect` panics with the slot left as
it was; otherwise the guard's address is stored back, then
`in_use.swap(false)` clears the flag and the `assert!` panics if the old
value was false. -/
def FfiGuard.drop (g : FfiGuard) (c : FfiCell) : DropResult × FfiCell :=
  match c.ptr with
  | some _ => (.fatalSlotOccupied, c)
  | none =>
    let c1 : FfiCell := { c with ptr := some g.ptr }
    let was_in_use := c1.in_use
    let c2 : FfiCell := { c1 with in_use := false }
    if was_in_use then (.ok, c2) else (.fatalNotInUse, c2)

/-- Outcome of `try_run`: `Ok(r)`, a propagated lend `Err`, an unwind of
the closure `f` (after a successful reclaim in the scope guard), or a
panic raised by the scope guard's `reclaim()` itself. -/
inductive RunResult (R : Type) where
  | ok (r : R)
  | err (e : LendError)
  | unwound
  | reclaimFatal (e : ReclaimResult)
deriving DecidableEq, Repr

namespace FfiCell

/-- `FfiCell::try_run(object, f)`: `try_lend` the object's address,
propagating an error with `?`; then run `f` — modelled as a state
transformer on the cell whose first component is `Except.ok r` for a
normal return and `Except.error ()` for an unwind — and in every case run
the scope guard's `reclaim()` afterwards, which panics on any
`try_reclaim` failure. On the fully normal path, `f`'s result is
returned. -/
def try_run {R : Type} (a : Addr) (f : FfiCell → Except Unit R × FfiCell)
    (c : FfiCell) : RunResult R × FfiCell :=
  match try_lend a c with
  | (.err e, c1) => (.err e, c1)
  | (.ok, c1) =>
    let fr := f c1
    let rr := try_reclaim fr.2
    match rr.1 with
    | .ok =>
      match fr.1 with
      | .ok r => (.ok r, rr.2)
      | .error _ => (.unwound, rr.2)
    | e => (.reclaimFatal e, rr.2)

end FfiCell

/-- One completed call on the cell, with any arguments: a lend of any
address, a borrow, a reclaim, or a guard release of any guard. Panicking
completions are included (the state component records what the operation
left behind). -/
inductive Step : FfiCell → FfiCell → Prop where
  | lend (a : Addr) (c : FfiCell) : Step c (FfiCell.try_lend a c).2
  | borrow (c : FfiCell) : Step c (FfiCell.try_borrow c).2
  | reclaim (c : FfiCell) : Step c (FfiCell.try_reclaim c).2
  | release (g : FfiGuard) (c : FfiCell) : Step c (g.drop c).2

/-- Cell states reachable from a fresh cell by completed operations. -/
inductive Reachable : FfiCell → Prop where
  | init : Reachable FfiCell.new
  | step {c c2 : FfiCell} : Reachable c → Step c c2 → Reachable c2

/-- The three stable encodings of §4.1: (false,false)=Empty,
(true,false)=Lent, (false,true)=Borrowed. -/
def validEncoding (c : FfiCell) : Prop :=
  (c.ptr = none ∧ c.in_use = false) ∨
  ((∃ a, c.ptr = some a) ∧ c.in_use = false) ∨
  (c.ptr = none ∧ c.in_use = true)

/-!
Interleaving model for the concurrency claim: `try_lend` consists of two
atomic steps — the advisory `in_use.load` and the authoritative
`ptr.compare_exchange` — and two threads, each performing one lend of its
own address, are interleaved by an arbitrary schedule (a list of booleans
naming which thread takes its next atomic step).
-/

/-- Progress of one thread through `try_lend`'s two atomic steps:
`start` = before the `in_use` load, `checked` = the load returned false
and the compare-exchange is pending, `done r` = the call returned `r`. -/
inductive TState where
  | start
  | checked
  | done (r : LendResult)
deriving DecidableEq, Repr

/-- One atomic step of a thread lending address `a` from state `t` on a
cell `c`; a finished thread stutters. -/
def threadStep (a : Addr) (t : TState) (c : FfiCell) : TState × FfiCell :=
  match t with
  | .start =>
    if c.in_use then (.done (.err .alreadyLent), c) else (.checked, c)
  | .checked =>
    match c.ptr with
    | none => (.done .ok, { c with ptr := some a })
    | some _ => (.done (.err .alreadyHasLoan), c)
  | .done r => (.done r, c)

/-- A configuration of the two-lender system: the shared cell and both
threads' progress. -/
structure Config where
  cell : FfiCell
  t0 : TState
  t1 : TState
deriving DecidableEq, Repr

/-- Let the thread named by `i` take its next atomic step. -/
def schedStep (a0 a1 : Addr) (cfg : Config) (i : Bool) : Config :=
  if i then
    let s := threadStep a1 cfg.t1 cfg.cell
    { cfg with t1 := s.1, cell := s.2 }
  else
    let s := threadStep a0 cfg.t0 cfg.cell
    { cfg with t0 := s.1, cell := s.2 }

/-- Run a schedule from an Empty cell with both lends pending. -/
def runSched (a0 a1 : Addr) (sched : List Bool) : Config :=
  sched.foldl (schedStep a0 a1) ⟨FfiCell.new, .start, .start⟩

/-- Inductive invariant of the two-lender system: the busy flag is never
written, neither thread can fail the advisory check, and the slot holds
an address exactly when exactly one thread has already won it. -/
def lendInv (cfg : Config) : Prop :=
  cfg.cell.in_use = false ∧
  cfg.t0 ≠ .done (.err .alreadyLent) ∧
  cfg.t1 ≠ .done (.err .alreadyLent) ∧
  (match cfg.cell.ptr with
   | none =>
     cfg.t0 ≠ .done .ok ∧ cfg.t1 ≠ .done .ok ∧
     cfg.t0 ≠ .done (.err .alreadyHasLoan) ∧
     cfg.t1 ≠ .done (.err .alreadyHasLoan)
   | some _ =>
     (cfg.t0 = .done .ok ∧ cfg.t1 ≠ .done .ok) ∨
     (cfg.t1 = .done .ok ∧ cfg.t0 ≠ .done .ok))

lemma lendInv_step (a0 a1 : Addr) (cfg : Config) (i : Bool)
    (h : lendInv cfg) : lendInv (schedStep a0 a1 cfg i) := by
  obtain ⟨⟨p, b⟩, t0, t1⟩ := cfg
  obtain ⟨hb, h0, h1, hp⟩ := h
  simp only at hb
  subst hb
  cases i <;> cases p <;>
    simp only [lendInv, schedStep, threadStep] at hp ⊢
  · cases t0 with
    | start => simp_all
    | checked => simp_all
    | done r => simp_all
  · cases t0 with
    | start => simp_all
    | checked => simp_all
    | done r => rcases hp with ⟨hp1, hp2⟩ | ⟨hp1, hp2⟩ <;> simp_all
  · cases t1 with
    | start => simp_all
    | checked => simp_all
    | done r => simp_all
  · cases t1 with
    | start => simp_all
    | checked => simp_all
    | done r => rcases hp with ⟨hp1, hp2⟩ | ⟨hp1, hp2⟩ <;> simp_all

lemma lendInv_foldl (a0 a1 : Addr) (sched : List Bool) (cfg : Config)
    (h : lendInv cfg) : lendInv (sched.foldl (schedStep a0 a1) cfg) := by
  induction sched generalizing cfg with
  | nil => exact h
  | cons i rest ih =>
    exact ih _ (lendInv_step a0 a1 cfg i h)

lemma lendInv_runSched (a0 a1 : Addr) (sched : List Bool) :
    lendInv (runSched a0 a1 sched) := by
  apply lendInv_foldl
  refine ⟨rfl, by simp, by simp, ?_⟩
  simp [FfiCell.new, lendInv]

/-!
Claim theorems.
-/

/-- C1: for every cell state, `try_borrow` first claims the busy flag and
fails with `AlreadyBorrowed` exactly when the flag was already set; having
claimed the flag, it takes and clears the stored address; if no address
was stored it fails with `Unavailable` leaving the busy flag set; on
success it returns a guard that owns the taken address. -/
theorem try_borrow_spec (c : FfiCell) :
    ((FfiCell.try_borrow c).1 = .alreadyBorrowed ↔ c.in_use = true) ∧
    (c.in_use = true → FfiCell.try_borrow c = (.alreadyBorrowed, c)) ∧
    (c.in_use = false → (FfiCell.try_borrow c).2 = ⟨none, true⟩) ∧
    (c.in_use = false → c.ptr = none →
      FfiCell.try_borrow c = (.unavailable, ⟨none, true⟩)) ∧
    (∀ a, c.in_use = false → c.ptr = some a →
      FfiCell.try_borrow c = (.ok ⟨a⟩, ⟨none, true⟩)) := by
  obtain ⟨p, b⟩ := c
  cases b <;> cases p <;> simp [FfiCell.try_borrow]

/-- C1 witness: on the Lent cell holding address 5, `try_borrow` succeeds
with a guard owning 5; the hypotheses of `try_borrow_spec`'s success
conjunct are discharged at that concrete cell. -/
theorem try_borrow_spec_witness :
    FfiCell.try_borrow ⟨some 5, false⟩ = (.ok ⟨5⟩, ⟨none, true⟩) :=
  (try_borrow_spec ⟨some 5, false⟩).2.2.2.2 5 rfl rfl

/-- C2: for every cell state, `try_lend a` fails with `AlreadyLent` when
the busy flag is true; otherwise fails with `AlreadyHasLoan` when an
address is already stored; otherwise succeeds, and on success the only
observable effect is that the cell stores the given address (the busy
flag is unchanged). -/
theorem try_lend_spec (a : Addr) (c : FfiCell) :
    (c.in_use = true → FfiCell.try_lend a c = (.err .alreadyLent, c)) ∧
    (∀ x, c.in_use = false → c.ptr = some x →
      FfiCell.try_lend a c = (.err .alreadyHasLoan, c)) ∧
    (c.in_use = false → c.ptr = none →
      FfiCell.try_lend a c = (.ok, { c with ptr := some a })) := by
  obtain ⟨p, b⟩ := c
  cases b <;> cases p <;> simp [FfiCell.try_lend]

/-- C2 witness: lending address 7 to a fresh cell succeeds and stores 7,
leaving the busy flag false. -/
theorem try_lend_spec_witness :
    FfiCell.try_lend 7 FfiCell.new = (.ok, ⟨some 7, false⟩) :=
  (try_lend_spec 7 FfiCell.new).2.2 rfl rfl

/-- C3: `try_reclaim` fails with `InUse` exactly when the busy flag is
true, leaving both fields unchanged in that case; when the flag is false
and an address is stored it succeeds and clears the address; when the
flag is false and no address is stored it panics (`unreachable!`) rather
than returning a recoverable error. -/
theorem try_reclaim_spec (c : FfiCell) :
    ((FfiCell.try_reclaim c).1 = .inUse ↔ c.in_use = true) ∧
    (c.in_use = true → FfiCell.try_reclaim c = (.inUse, c)) ∧
    (∀ x, c.in_use = false → c.ptr = some x →
      FfiCell.try_reclaim c = (.ok, { c with ptr := none })) ∧
    (c.in_use = false → c.ptr = none →
      (FfiCell.try_reclaim c).1 = .fatalMissing) := by
  obtain ⟨p, b⟩ := c
  cases b <;> cases p <;> simp [FfiCell.try_reclaim]

/-- C3 witness: reclaiming a Lent cell holding 9 succeeds and clears the
slot; reclaiming an Empty cell hits the fatal path. -/
theorem try_reclaim_spec_witness :
    FfiCell.try_reclaim ⟨some 9, false⟩ = (.ok, ⟨none, false⟩) ∧
    (FfiCell.try_reclaim FfiCell.new).1 = .fatalMissing :=
  ⟨(try_reclaim_spec ⟨some 9, false⟩).2.2.1 9 rfl rfl,
   (try_reclaim_spec FfiCell.new).2.2.2 rfl rfl⟩

/-- C4: releasing a guard while the slot is empty and the busy flag is set
stores the guard's original address and clears the flag; if the slot is
non-empty at release, or the flag was already clear, the release panics
instead of returning normally. -/
theorem guard_drop_spec (g : FfiGuard) (c : FfiCell) :
    (c.ptr = none → c.in_use = true →
      g.drop c = (.ok, ⟨some g.ptr, false⟩)) ∧
    (∀ x, c.ptr = some x → (g.drop c).1 = .fatalSlotOccupied) ∧
    (c.ptr = none → c.in_use = false →
      (g.drop c).1 = .fatalNotInUse) := by
  obtain ⟨p, b⟩ := c
  cases b <;> cases p <;> simp [FfiGuard.drop]

/-- C4 witness: releasing a guard owning 5 on the Borrowed cell restores
the slot to 5 and clears the busy flag. -/
theorem guard_drop_spec_witness :
    FfiGuard.drop ⟨5⟩ ⟨none, true⟩ = (.ok, ⟨some 5, false⟩) :=
  (guard_drop_spec ⟨5⟩ ⟨none, true⟩).1 rfl rfl

/-- C9: whenever `try_lend` returns an error, the cell's stored address
and busy flag are both exactly as they were before the call. -/
theorem try_lend_failure_atomic (a : Addr) (c : FfiCell) (e : LendError)
    (h : (FfiCell.try_lend a c).1 = .err e) :
    (FfiCell.try_lend a c).2 = c := by
  obtain ⟨p, b⟩ := c
  cases b <;> cases p <;> simp_all [FfiCell.try_lend]

/-- C9 witness: lending 3 to a cell already holding 8 fails and leaves
the cell unchanged. -/
theorem try_lend_failure_atomic_witness :
    (FfiCell.try_lend 3 ⟨some 8, false⟩).2 = ⟨some 8, false⟩ :=
  try_lend_failure_atomic 3 ⟨some 8, false⟩ .alreadyHasLoan rfl

/-- C10: `try_reclaim` never modifies the busy flag on any path — success,
`InUse` failure, or the fatal missing-pointer case. -/
theorem try_reclaim_preserves_busy (c : FfiCell) :
    (FfiCell.try_reclaim c).2.in_use = c.in_use := by
  obtain ⟨p, b⟩ := c
  cases b <;> cases p <;> simp [FfiCell.try_reclaim]

/-- C5: `try_run a f` first lends `a` (propagating a lend failure as an
error without running `f` — the returned pair does not depend on `f` and
the state is untouched), then runs `f`, then reclaims on every exit path
of `f` (normal return or unwind), and on the normal path returns `f`'s
result; at the start of `f` the cell holds the address and is not busy,
and after `try_run` returns normally the cell holds no address and is not
busy. -/
theorem try_run_spec {R : Type} (a : Addr)
    (f : FfiCell → Except Unit R × FfiCell) (c : FfiCell) :
    (∀ e, (FfiCell.try_lend a c).1 = .err e →
      FfiCell.try_run a f c = (.err e, c)) ∧
    ((FfiCell.try_lend a c).1 = .ok →
      (FfiCell.try_lend a c).2 = ⟨some a, false⟩) ∧
    ((FfiCell.try_lend a c).1 = .ok →
      (FfiCell.try_run a f c).2 =
        (FfiCell.try_reclaim (f ⟨some a, false⟩).2).2) ∧
    (∀ r c2, (FfiCell.try_lend a c).1 = .ok →
      f ⟨some a, false⟩ = (.ok r, c2) →
      (FfiCell.try_reclaim c2).1 = .ok →
      FfiCell.try_run a f c = (.ok r, ⟨none, false⟩)) ∧
    (∀ r, (FfiCell.try_run a f c).1 = .ok r →
      (FfiCell.try_run a f c).2 = ⟨none, false⟩) := by
  obtain ⟨p, b⟩ := c
  cases b with
  | true =>
    refine ⟨?_, ?_, ?_, ?_, ?_⟩ <;>
      simp [FfiCell.try_run, FfiCell.try_lend]
  | false =>
    cases p with
    | some x =>
      refine ⟨?_, ?_, ?_, ?_, ?_⟩ <;>
        simp [FfiCell.try_run, FfiCell.try_lend]
    | none =>
      have hl : FfiCell.try_lend a ⟨none, false⟩ = (.ok, ⟨some a, false⟩) :=
        rfl
      refine ⟨?_, ?_, ?_, ?_, ?_⟩
      · intro e he
        simp [hl] at he
      · intro _
        simp [hl]
      · intro _
        rcases hf : f ⟨some a, false⟩ with ⟨fr, c2⟩
        obtain ⟨p2, b2⟩ := c2
        cases b2 <;> cases p2 <;> cases fr <;>
          simp [FfiCell.try_run, hl, hf, FfiCell.try_reclaim]
      · intro r c2 _ hf hr
        obtain ⟨p2, b2⟩ := c2
        cases b2 <;> cases p2 <;>
          simp_all [FfiCell.try_run, hl, FfiCell.try_reclaim]
      · intro r hr
        rcases hf : f ⟨some a, false⟩ with ⟨fr, c2⟩
        obtain ⟨p2, b2⟩ := c2
        cases b2 <;> cases p2 <;> cases fr <;>
          simp_all [FfiCell.try_run, hl, FfiCell.try_reclaim]

/-- C5 witness: running, on a fresh cell, a callback that borrows the
lent address 5, reads it, releases its guard and returns the address it
saw: `try_run` succeeds with result 5 and leaves the cell Empty and not
busy; moreover the callback is entered on the cell holding 5 and not
busy. -/
theorem try_run_spec_witness :
    FfiCell.try_run 5
      (fun c =>
        match FfiCell.try_borrow c with
        | (.ok g, c1) => (.ok g.deref, (g.drop c1).2)
        | (_, c1) => (.error (), c1))
      FfiCell.new = (.ok 5, ⟨none, false⟩) :=
  (try_run_spec 5
      (fun c =>
        match FfiCell.try_borrow c with
        | (.ok g, c1) => (.ok g.deref, (g.drop c1).2)
        | (_, c1) => (.error (), c1))
      FfiCell.new).2.2.2.1 5 ⟨some 5, false⟩ rfl rfl rfl

/-- C6: round-trip of lend then borrow — for every Empty, non-busy cell
and every address, after `try_lend a` succeeds, `try_borrow` succeeds and
the returned guard dereferences to exactly the lent address `a`. -/
theorem lend_borrow_roundtrip (a : Addr) (c : FfiCell)
    (hp : c.ptr = none) (hb : c.in_use = false) :
    (FfiCell.try_lend a c).1 = .ok ∧
    ∃ g, (FfiCell.try_borrow (FfiCell.try_lend a c).2).1 = .ok g ∧
      g.deref = a := by
  obtain ⟨p, b⟩ := c
  simp only at hp hb
  subst hp hb
  exact ⟨rfl, ⟨a⟩, rfl, rfl⟩

/-- C6 witness: lending 42 to a fresh cell then borrowing yields a guard
whose dereference is 42. -/
theorem lend_borrow_roundtrip_witness :
    (FfiCell.try_lend 42 FfiCell.new).1 = .ok ∧
    ∃ g, (FfiCell.try_borrow (FfiCell.try_lend 42 FfiCell.new).2).1 =
      .ok g ∧ g.deref = 42 :=
  lend_borrow_roundtrip 42 FfiCell.new rfl rfl

lemma validEncoding_step {c c2 : FfiCell} (h : validEncoding c)
    (hs : Step c c2) : validEncoding c2 := by
  cases hs with
  | lend a c =>
    obtain ⟨p, b⟩ := c
    cases b <;> cases p <;> simp_all [validEncoding, FfiCell.try_lend]
  | borrow c =>
    obtain ⟨p, b⟩ := c
    cases b <;> cases p <;> simp_all [validEncoding, FfiCell.try_borrow]
  | reclaim c =>
    obtain ⟨p, b⟩ := c
    cases b <;> cases p <;> simp_all [validEncoding, FfiCell.try_reclaim]
  | release g c =>
    obtain ⟨p, b⟩ := c
    cases b <;> cases p <;> simp_all [validEncoding, FfiGuard.drop]

/-- C7: starting from a fresh cell, after every completed operation the
(address-present, busy) pair is one of (false,false), (true,false),
(false,true); in particular (true,true) is never reached as a stable
state. -/
theorem reachable_validEncoding (c : FfiCell) (h : Reachable c) :
    validEncoding c ∧ ¬((∃ a, c.ptr = some a) ∧ c.in_use = true) := by
  have hv : validEncoding c := by
    induction h with
    | init => exact Or.inl ⟨rfl, rfl⟩
    | step _ hs ih => exact validEncoding_step ih hs
  refine ⟨hv, ?_⟩
  rintro ⟨⟨a, ha⟩, hb⟩
  rcases hv with ⟨h1, h2⟩ | ⟨h1, h2⟩ | ⟨h1, h2⟩ <;> simp_all

/-- C7 witness: the fresh cell itself is reachable and is a valid
encoding whose slot and busy flag are not simultaneously set. -/
theorem reachable_validEncoding_witness :
    validEncoding FfiCell.new ∧
    ¬((∃ a, FfiCell.new.ptr = some a) ∧ FfiCell.new.in_use = true) :=
  reachable_validEncoding FfiCell.new Reachable.init

/-- C8: for two concurrent lend attempts on an Empty cell, in every
interleaving in which both calls complete, exactly one succeeds and the
other fails with a lend-conflict error (`AlreadyLent` or
`AlreadyHasLoan`); no interleaving lets both succeed. -/
theorem concurrent_lend_exclusive (a0 a1 : Addr) (sched : List Bool)
    (r0 r1 : LendResult)
    (h0 : (runSched a0 a1 sched).t0 = .done r0)
    (h1 : (runSched a0 a1 sched).t1 = .done r1) :
    (r0 = .ok ∧
      (r1 = .err .alreadyLent ∨ r1 = .err .alreadyHasLoan)) ∨
    (r1 = .ok ∧
      (r0 = .err .alreadyLent ∨ r0 = .err .alreadyHasLoan)) := by
  have hinv := lendInv_runSched a0 a1 sched
  obtain ⟨hb, hl0, hl1, hp⟩ := hinv
  rcases hcp : (runSched a0 a1 sched).cell.ptr with _ | x
  · rw [hcp] at hp
    simp only at hp
    obtain ⟨hk0, _, hk2, _⟩ := hp
    cases r0 with
    | ok => exact absurd h0 (by simp_all)
    | err e =>
      cases e
      · exact absurd h0 (by simp_all)
      · exact absurd h0 (by simp_all)
  · rw [hcp] at hp
    simp only at hp
    rcases hp with ⟨hw, ho⟩ | ⟨hw, ho⟩
    · left
      refine ⟨by simp_all, ?_⟩
      cases r1 with
      | ok => exact absurd h1 (by simp_all)
      | err e => cases e <;> simp
    · right
      refine ⟨by simp_all, ?_⟩
      cases r0 with
      | ok => exact absurd h0 (by simp_all)
      | err e => cases e <;> simp

/-- C8 witness: under the schedule where thread 0 takes both its atomic
steps and then thread 1 takes both of its steps, both lends complete,
thread 0's lend of 1 succeeds and thread 1's lend of 2 fails with a
lend-conflict error. -/
theorem concurrent_lend_exclusive_witness :
    (LendResult.ok = .ok ∧
      (LendResult.err .alreadyHasLoan = .err .alreadyLent ∨
       LendResult.err .alreadyHasLoan = .err .alreadyHasLoan)) ∨
    (LendResult.err .alreadyHasLoan = .ok ∧
      (LendResult.ok = .err .alreadyLent ∨
       LendResult.ok = .err .alreadyHasLoan)) :=
  concurrent_lend_exclusive 1 2 [false, false, true, true]
    .ok (.err .alreadyHasLoan) rfl rfl
